import Mathlib

/-!
Shallow embedding of the camera capture/decoder code:
`pkg/driver/camera/camera_linux.go` (V4L2 camera: format table, `VideoRecord`
read loop, `Properties`, `Close`) and `pkg/frame` (decoder proxy
`decoderFunc.Decode`, `decoderError`, `decodeMJPEG`).

Machine integers are modelled as `Nat` (all quantities involved are
non-negative and no arithmetic here can overflow in practice: frame sizes,
resolutions and loop counters). Byte buffers are `List Nat`. Go errors are an
inductive type; Go's `errors.Is` chain walk is embedded for the error shapes
that occur in this code.
-/

/-- Modelled from the spec: the canonical frame-format enum (`frame.Format`)
is declared in the frame package, outside the files at hand; the spec (§3,
glossary) describes it as a closed enum of pixel layouts — the seven formats
registered in the camera's table plus further planar-YUV variants. `i444` is
such a further variant, present in the enum but absent from the camera's
format table. -/
inductive Format where
  | i420
  | nv21
  | nv12
  | yuyv
  | uyvy
  | mjpeg
  | z16
  | i444
  deriving DecidableEq, Repr

/-- Go errors that occur in this code. `simple` stands for an
`errors.New` sentinel (distinct message ⇒ distinct identity);
`decoderErr` is the `*decoderError` wrapper struct of the frame package;
`timeoutErr` is `*webcam.Timeout`; `eofErr` is `io.EOF`. -/
inductive GoError where
  | simple (msg : String)
  | decoderErr (cause : GoError)
  | timeoutErr
  | eofErr
  deriving DecidableEq, Repr

/-- The sentinel `var DecoderError = errors.New("decoder error")` of the frame package. -/
def DecoderErrorSentinel : GoError := .simple "decoder error"

/-- The sentinel `var errReadTimeout = errors.New("read timeout")`. -/
def errReadTimeout : GoError := .simple "read timeout"

/-- The sentinel `var errEmptyFrame = errors.New("empty frame")`. -/
def errEmptyFrame : GoError := .simple "empty frame"

/-- Go's `errors.Is(target, DecoderError)`: for a `*decoderError`, its `Is`
method fires (`errors.Is(DecoderError, DecoderError)` is true); a plain error
is compared for identity with the sentinel. -/
def isDecoderTarget : GoError → Bool
  | .decoderErr _ => true
  | e => e == DecoderErrorSentinel

/-- Go's `errors.Is(err, target)` restricted to the error shapes of this
code: a `*decoderError` first consults its `Is` method
(`errors.Is(target, DecoderError)`), then unwraps to its cause; any other
error is compared for identity. -/
def errorsIs : GoError → GoError → Bool
  | .decoderErr cause, target => isDecoderTarget target || errorsIs cause target
  | e, target => e == target

/-- `(*decoderError).Unwrap`: returns the wrapped cause. -/
def decoderErrUnwrap : GoError → Option GoError
  | .decoderErr cause => some cause
  | _ => none

/-- `(*decoderError).Cause`: returns the wrapped cause (same field as
`Unwrap`). -/
def decoderErrCause : GoError → Option GoError
  | .decoderErr cause => some cause
  | _ => none

/-- Result triple of `Decoder.Decode(frame, width, height)`: image, release
callback (modelled as an opaque tag), error. -/
structure DecodeRet where
  img : Option Nat
  release : Nat
  err : Option GoError
  deriving DecidableEq, Repr

/-- A decoder implementation: `func(frame []byte, width, height int)`. -/
def DecFn : Type := List Nat → Nat → Nat → DecodeRet

/-- The proxy `decoderFunc.Decode`: runs the underlying decode function and, when it
failed, replaces the error with `&decoderError{cause: err}`; the image and
release callback pass through unchanged. -/
def decoderFuncDecode (f : DecFn) : DecFn := fun b w h =>
  let r := f b w h
  match r.err with
  | none => r
  | some e => { r with err := some (.decoderErr e) }

/-- The function `decodeMJPEG` of `pkg/frame/compressed.go`: hands the bytes to the
standard-library JPEG decoder (a parameter here — it is outside the
repository), logs on failure, and returns the image or the error with a no-op
release callback; the declared width/height are ignored (JPEG data is
self-describing). -/
def decodeMJPEG (jpegDecode : List Nat → Except GoError Nat) : DecFn :=
  fun b _ _ =>
    match jpegDecode b with
    | .ok img => ⟨some img, 0, none⟩
    | .error e => ⟨none, 0, some e⟩

/-- The `formats` table of `newCamera`: V4L2 fourcc code ↔ canonical format,
in source order. -/
def formatPairs : List (Nat × Format) :=
  [ (0x32315559, .i420),
    (0x3132564E, .nv21),
    (0x3231564E, .nv12),
    (0x56595559, .yuyv),
    (0x59565955, .uyvy),
    (0x47504A4D, .mjpeg),
    (0x2036315A, .z16) ]

/-- Lookup in the forward map `c.formats` (native → canonical), with
presence information (`v, ok := m[k]`). -/
def lookupFormat (pf : Nat) : Option Format :=
  (formatPairs.find? (fun p => p.1 == pf)).map (·.2)

/-- Lookup in `c.reversedFormats` (canonical → native), with presence
information. -/
def lookupReversed (f : Format) : Option Nat :=
  (formatPairs.find? (fun p => p.2 == f)).map (·.1)

/-- The index expression `c.reversedFormats[p.FrameFormat]` as the Go code reads it: a map index
expression without the `ok` form, yielding the zero value
(`webcam.PixelFormat(0)`) when the key is absent. -/
def goReversedIndex (f : Format) : Nat :=
  (lookupReversed f).getD 0

/-- One step of the scratch-buffer handling in the read loop: grow `buf` when
the incoming frame `b` is larger (`buf = make([]byte, len(b))`), then
`n := copy(buf, b)` (copies `min` of the two lengths into the front of the
buffer, keeping the tail), and slice `buf[:n]` for the decoder. Returns the
new scratch buffer and the slice handed to `Decode`. -/
def scratchStep (buf b : List Nat) : List Nat × List Nat :=
  let grown := if buf.length < b.length then List.replicate b.length 0 else buf
  let n := min grown.length b.length
  let newBuf := b.take n ++ grown.drop n
  (newBuf, newBuf.take n)

/-- Outcome of `cam.WaitForFrame(readTimeoutSec)`. -/
inductive WaitOutcome where
  | ok
  | timedOut
  | fail (e : GoError)
  deriving DecidableEq, Repr

/-- Outcome of `cam.ReadFrame()`. -/
inductive ReadOutcome where
  | ok (b : List Nat)
  | fail (e : GoError)
  deriving DecidableEq, Repr

/-- The environment one loop iteration observes: whether `ctx.Err() != nil`
at the top of the iteration, and the hardware wait/read outcomes. -/
structure IterEnv where
  cancelled : Bool
  wait : WaitOutcome
  read : ReadOutcome
  deriving DecidableEq, Repr

/-- What one call of the `video.ReaderFunc` closure returns. -/
inductive NextResult where
  /-- Signal `io.EOF`: the camera was closed. -/
  | eof
  /-- Error `errReadTimeout` after `*webcam.Timeout`. -/
  | readTimeout
  /-- A hard wait/read error, propagated as-is. -/
  | hardFail (e : GoError)
  /-- Statement `return img, release, err` at the bottom of the loop body (the
  decode result, whose error — if any — is not decoder-classified). -/
  | ret (r : DecodeRet)
  /-- Error `errEmptyFrame` after the retry budget is exhausted. -/
  | emptyFrames
  deriving DecidableEq, Repr

/-- The constant `maxEmptyFrameCount = 5`. -/
def maxEmptyFrameCount : Nat := 5

/-- State carried out of one reader call: the result, the scratch buffer, and
the accumulated list of `decoder.Decode` invocations `(slice, width, height)`
(instrumentation used to state which arguments the decoder sees). -/
structure LoopOut where
  result : NextResult
  buf : List Nat
  calls : List (List Nat × Nat × Nat)
  deriving Repr

/-- The body of `for i := 0; i < maxEmptyFrameCount; i++` in `VideoRecord`'s
reader closure, with `fuel` the remaining iterations (`maxEmptyFrameCount - i`):
check cancellation, wait (timeout → `errReadTimeout`, other error →
propagate), read (error → propagate), retry on an empty frame, otherwise copy
into the scratch buffer, decode at the bound `w`/`h`, retry on a
decoder-classified error, and return the decode result; falling off the loop
yields `errEmptyFrame`. -/
def readLoopAux (decoder : DecFn) (w h : Nat) (env : Nat → IterEnv) :
    Nat → Nat → List Nat → List (List Nat × Nat × Nat) → LoopOut
  | _, 0, buf, calls => ⟨.emptyFrames, buf, calls⟩
  | i, fuel + 1, buf, calls =>
    let e := env i
    if e.cancelled then ⟨.eof, buf, calls⟩
    else
      match e.wait with
      | .timedOut => ⟨.readTimeout, buf, calls⟩
      | .fail er => ⟨.hardFail er, buf, calls⟩
      | .ok =>
        match e.read with
        | .fail er => ⟨.hardFail er, buf, calls⟩
        | .ok b =>
          if b.length = 0 then
            readLoopAux decoder w h env (i + 1) fuel buf calls
          else
            let s := scratchStep buf b
            let calls := calls ++ [(s.2, w, h)]
            let r := decoder s.2 w h
            match r.err with
            | some er =>
              if errorsIs er DecoderErrorSentinel then
                readLoopAux decoder w h env (i + 1) fuel s.1 calls
              else ⟨.ret r, s.1, calls⟩
            | none => ⟨.ret r, s.1, calls⟩

/-- One call to the reader closure (`next()`), entering the loop at `i = 0`
with the full `maxEmptyFrameCount` budget and the session's current scratch
buffer. -/
def readNext (decoder : DecFn) (w h : Nat) (env : Nat → IterEnv)
    (buf : List Nat) : LoopOut :=
  readLoopAux decoder w h env 0 maxEmptyFrameCount buf []

/-- The fields of `prop.Media` that `VideoRecord` reads. -/
structure MediaProp where
  frameFormat : Format
  width : Nat
  height : Nat
  frameRate : Nat
  deriving Repr

/-- The device operations `VideoRecord` performs, as oracles.
`setImageFormat` returns the actual `(pixelFormat, width, height)` the
hardware chose, which may differ from the request. -/
structure VRDevice where
  setImageFormat : Nat → Nat → Nat → Except GoError (Nat × Nat × Nat)
  setFramerate : Nat → Except GoError Unit
  startStreaming : Except GoError Unit

/-- The state captured by the reader closure that `VideoRecord` returns: the
decoder bound at construction and the width/height it will be invoked with. -/
structure ReaderCfg where
  decoder : DecFn
  width : Nat
  height : Nat

/-- Result of `VideoRecord`, instrumented with the list of
`SetImageFormat` invocations `(pixelFormat, width, height)`. -/
structure VROut where
  result : Except GoError ReaderCfg
  setFormatCalls : List (Nat × Nat × Nat)

/-- The method `camera.VideoRecord`: build the decoder for the requested canonical
format, index the reversed format map (zero value when absent — there is no
presence check), ask the device to set that native format and the requested
size (the actual format/size returned is only logged), apply the frame rate
when positive, start streaming, and hand back the reader closure bound to the
decoder and the originally requested width/height. -/
def videoRecord (newDecoder : Format → Except GoError DecFn)
    (dev : VRDevice) (p : MediaProp) : VROut :=
  match newDecoder p.frameFormat with
  | .error e => ⟨.error e, []⟩
  | .ok d =>
    let pf := goReversedIndex p.frameFormat
    match dev.setImageFormat pf p.width p.height with
    | .error e => ⟨.error e, [(pf, p.width, p.height)]⟩
    | .ok _actual =>
      let frameRateErr : Option GoError :=
        if p.frameRate > 0 then
          match dev.setFramerate p.frameRate with
          | .error e => some e
          | .ok _ => none
        else none
      match frameRateErr with
      | some e => ⟨.error e, [(pf, p.width, p.height)]⟩
      | none =>
        match dev.startStreaming with
        | .error e => ⟨.error e, [(pf, p.width, p.height)]⟩
        | .ok _ => ⟨.ok ⟨d, p.width, p.height⟩, [(pf, p.width, p.height)]⟩

/-- Running the reader closure returned by `VideoRecord`: it decodes with the
captured decoder at the captured (requested) dimensions. -/
def runReader (cfg : ReaderCfg) (env : Nat → IterEnv) (buf : List Nat) :
    LoopOut :=
  readNext cfg.decoder cfg.width cfg.height env buf

/-- Type `webcam.FrameSize`: a discrete or stepwise frame-size entry reported by
the device. -/
structure FrameSize where
  minWidth : Nat
  maxWidth : Nat
  stepWidth : Nat
  minHeight : Nat
  maxHeight : Nat
  stepHeight : Nat
  deriving DecidableEq, Repr

/-- The list `supportedResolutions` of `camera_linux.go`, in source order. -/
def supportedResolutions : List (Nat × Nat) :=
  [ (320, 240), (640, 480), (768, 576), (800, 600), (1024, 768),
    (1280, 854), (1280, 960), (1280, 1024), (1400, 1050), (1600, 1200),
    (2048, 1536), (320, 200), (800, 480), (854, 480), (1024, 600),
    (1152, 768), (1280, 720), (1280, 768), (1366, 768), (1280, 800),
    (1440, 900), (1440, 960), (1680, 1050), (1920, 1080), (2048, 1080),
    (1920, 1200), (2560, 1600) ]

/-- The video fields of one `prop.Media` descriptor that `Properties`
emits. -/
structure VideoProp where
  width : Nat
  height : Nat
  frameFormat : Format
  deriving DecidableEq, Repr

/-- The body of the inner loop of `camera.Properties` for one frame-size
entry of a table-registered format: a zero step component means a discrete
size, emitted at `(MaxWidth, MaxHeight)`; otherwise each standard resolution
is emitted when it lies in the min/max range and hits the step grid from the
minimum, width and height checked independently. -/
def sizeProperties (fmt : Format) (fs : FrameSize) : List VideoProp :=
  if fs.stepWidth = 0 ∨ fs.stepHeight = 0 then
    [⟨fs.maxWidth, fs.maxHeight, fmt⟩]
  else
    supportedResolutions.filterMap (fun r =>
      if r.1 < fs.minWidth ∨ fs.maxWidth < r.1 ∨
          r.2 < fs.minHeight ∨ fs.maxHeight < r.2 then none
      else if (r.1 - fs.minWidth) % fs.stepWidth ≠ 0 ∨
          (r.2 - fs.minHeight) % fs.stepHeight ≠ 0 then none
      else some ⟨r.1, r.2, fmt⟩)

/-- The method `camera.Properties`: for each native format the device reports and each
of its frame-size entries, skip the entry when the format is absent from the
forward table, otherwise emit `sizeProperties`. The device report is a list
of `(nativeFormat, frameSizes)`. -/
def cameraProperties (reported : List (Nat × List FrameSize)) :
    List VideoProp :=
  reported.flatMap (fun fsz =>
    fsz.2.flatMap (fun fs =>
      match lookupFormat fsz.1 with
      | none => []
      | some fmt => sizeProperties fmt fs))

/-- The observable session state `camera.Close` manipulates: whether
`c.cam != nil`, whether `c.cancel != nil`, and counters of how many times the
underlying `StopStreaming` and `Webcam.Close` were invoked. -/
structure CamState where
  camSet : Bool
  cancelSet : Bool
  stopStreamingCalls : Nat
  camCloseCalls : Nat
  deriving DecidableEq, Repr

/-- The method `camera.Close` (linux): a nil handle is a logged no-op; otherwise, when a
reader is active, signal cancellation, take the reader lock, stop streaming
and clear the cancel function; then invoke the handle's `Close` (its error is
discarded) and return nil. The handle field itself is never cleared. -/
def cameraClose (s : CamState) : CamState × Option GoError :=
  if s.camSet = false then (s, none)
  else
    let s1 :=
      if s.cancelSet then
        { s with stopStreamingCalls := s.stopStreamingCalls + 1,
                 cancelSet := false }
      else s
    ({ s1 with camCloseCalls := s1.camCloseCalls + 1 }, none)

/-- A decoder that always succeeds (used to instantiate theorems on concrete
sessions). -/
def decAlwaysOk : DecFn := fun _ _ _ => ⟨some 0, 0, none⟩

/-- A decoder that always fails with a plain (unwrapped) error. -/
def decAlwaysFail : DecFn := fun _ _ _ => ⟨none, 3, some (.simple "boom")⟩

/-- An environment whose session is already cancelled. -/
def envCancelled : Nat → IterEnv := fun _ => ⟨true, .ok, .ok []⟩

/-- An environment with four empty reads followed by a one-byte frame. -/
def envFourEmptyThenFrame : Nat → IterEnv := fun j =>
  if j < 4 then ⟨false, .ok, .ok []⟩ else ⟨false, .ok, .ok [9]⟩

/-- An environment where every read is empty. -/
def envAllEmpty : Nat → IterEnv := fun _ => ⟨false, .ok, .ok []⟩

/-- An environment reading frame `[1]`, then frame `[2]`, then empty. -/
def envBadThenGood : Nat → IterEnv := fun j =>
  if j = 0 then ⟨false, .ok, .ok [1]⟩
  else if j = 1 then ⟨false, .ok, .ok [2]⟩
  else ⟨false, .ok, .ok []⟩

/-- An environment reading frame `[1]` and then only empty frames. -/
def envBadThenEmpty : Nat → IterEnv := fun j =>
  if j = 0 then ⟨false, .ok, .ok [1]⟩ else ⟨false, .ok, .ok []⟩

/-- A decoder failing (decoder-classified) on frame `[1]` and succeeding with
image 7 on anything else. -/
def decFailOnOne : DecFn := fun b _ _ =>
  if b = [1] then ⟨none, 0, some (.decoderErr (.simple "bad frame"))⟩
  else ⟨some 7, 0, none⟩

/-- A decoder constructor that succeeds for every format. -/
def newDecoderAlwaysOk : Format → Except GoError DecFn := fun _ => .ok decAlwaysOk

/-- A device that accepts exactly the requested format and size. -/
def devEcho : VRDevice where
  setImageFormat := fun pf w h => .ok (pf, w, h)
  setFramerate := fun _ => .ok ()
  startStreaming := .ok ()

/-- A device that accepts the stream but answers `SetImageFormat` with a
different actual format and resolution than requested. -/
def devDowngrade : VRDevice where
  setImageFormat := fun _ _ _ => .ok (0x47504A4D, 99, 77)
  setFramerate := fun _ => .ok ()
  startStreaming := .ok ()

/-- A JPEG oracle (stand-in for the standard library decoder) that always
fails. -/
def jpegAlwaysFail : List Nat → Except GoError Nat :=
  fun _ => .error (.simple "invalid JPEG")

/-- A JPEG oracle that always succeeds with image 5. -/
def jpegAlwaysOk : List Nat → Except GoError Nat := fun _ => .ok 5

theorem take_append_of_len {α : Type} (l1 l2 : List α) (n : Nat)
    (h : l1.length = n) : (l1 ++ l2).take n = l1 := by
  subst h
  exact List.take_left l1 l2

theorem scratchStep_snd (buf b : List Nat) : (scratchStep buf b).2 = b := by
  unfold scratchStep
  by_cases hlt : buf.length < b.length
  · simp only [hlt, if_true]
    rw [List.length_replicate, Nat.min_self,
      take_append_of_len _ _ _ (by rw [List.length_take, Nat.min_self]),
      List.take_length]
  · simp only [hlt, if_false]
    have hle : b.length ≤ buf.length := Nat.le_of_not_lt hlt
    rw [Nat.min_eq_right hle,
      take_append_of_len _ _ _ (by rw [List.length_take, Nat.min_self]),
      List.take_length]

theorem scratchStep_fst_len (buf b : List Nat) :
    (scratchStep buf b).1.length = max b.length buf.length := by
  unfold scratchStep
  by_cases hlt : buf.length < b.length
  · simp only [hlt, if_true]
    rw [List.length_replicate, Nat.min_self, List.length_append,
      List.length_take, List.length_drop, List.length_replicate]
    omega
  · simp only [hlt, if_false]
    have hle : b.length ≤ buf.length := Nat.le_of_not_lt hlt
    rw [Nat.min_eq_right hle, List.length_append, List.length_take,
      List.length_drop]
    omega

theorem readLoopAux_buf_mono (decoder : DecFn) (w h : Nat)
    (env : Nat → IterEnv) :
    ∀ fuel i buf calls,
      buf.length ≤ (readLoopAux decoder w h env i fuel buf calls).buf.length := by
  intro fuel
  induction fuel with
  | zero => intro i buf calls; exact Nat.le_refl _
  | succ n ih =>
    intro i buf calls
    simp only [readLoopAux]
    repeat' split
    all_goals first
      | exact Nat.le_refl _
      | exact ih _ _ _
      | (rw [scratchStep_fst_len]; exact Nat.le_max_right _ _)
      | exact Nat.le_trans
          (by rw [scratchStep_fst_len]; exact Nat.le_max_right _ _) (ih _ _ _)

theorem readLoopAux_calls_mono (decoder : DecFn) (w h : Nat)
    (env : Nat → IterEnv) :
    ∀ fuel i buf calls, ∃ rest,
      (readLoopAux decoder w h env i fuel buf calls).calls = calls ++ rest := by
  intro fuel
  induction fuel with
  | zero => intro i buf calls; exact ⟨[], by simp [readLoopAux]⟩
  | succ n ih =>
    intro i buf calls
    simp only [readLoopAux]
    split
    · exact ⟨[], by simp⟩
    split
    · exact ⟨[], by simp⟩
    · exact ⟨[], by simp⟩
    split
    · exact ⟨[], by simp⟩
    split
    · exact ih _ _ _
    split
    · split
      · obtain ⟨rest, hrest⟩ := ih (i + 1) (scratchStep buf _).1
          (calls ++ [((scratchStep buf _).2, w, h)])
        exact ⟨_, by rw [hrest, List.append_assoc]⟩
      · exact ⟨[((scratchStep buf _).2, w, h)], rfl⟩
    · exact ⟨[((scratchStep buf _).2, w, h)], rfl⟩

theorem readLoopAux_calls_dims (decoder : DecFn) (w h : Nat)
    (env : Nat → IterEnv) :
    ∀ fuel i buf calls c,
      c ∈ (readLoopAux decoder w h env i fuel buf calls).calls →
      c ∈ calls ∨ (c.2.1 = w ∧ c.2.2 = h) := by
  intro fuel
  induction fuel with
  | zero =>
    intro i buf calls c hc
    simp only [readLoopAux] at hc
    exact Or.inl hc
  | succ n ih =>
    intro i buf calls c hc
    simp only [readLoopAux] at hc
    split at hc
    · exact Or.inl hc
    split at hc
    · exact Or.inl hc
    · exact Or.inl hc
    split at hc
    · exact Or.inl hc
    split at hc
    · exact ih _ _ _ _ hc
    split at hc
    · split at hc
      · rcases ih _ _ _ _ hc with hmem | hdims
        · rcases List.mem_append.mp hmem with hmem2 | hone
          · exact Or.inl hmem2
          · simp only [List.mem_singleton] at hone
            subst hone
            exact Or.inr ⟨rfl, rfl⟩
        · exact Or.inr hdims
      · rcases List.mem_append.mp hc with hmem2 | hone
        · exact Or.inl hmem2
        · simp only [List.mem_singleton] at hone
          subst hone
          exact Or.inr ⟨rfl, rfl⟩
    · rcases List.mem_append.mp hc with hmem2 | hone
      · exact Or.inl hmem2
      · simp only [List.mem_singleton] at hone
        subst hone
        exact Or.inr ⟨rfl, rfl⟩

/-- Claim C7: if the session's cancellation has been signalled by `Close`
before a `next()` call, the call returns the end-of-stream signal `io.EOF`
(not a decode or stream error); moreover the cancellation flag is re-checked
at the top of every retry iteration — whenever an iteration begins with the
flag set and retry budget remaining, the loop returns `io.EOF` there. -/
theorem next_after_cancel_returns_eof :
    (∀ decoder w h env buf, (env 0).cancelled = true →
      (readNext decoder w h env buf).result = NextResult.eof) ∧
    (∀ decoder w h env i fuel buf calls, 0 < fuel →
      (env i).cancelled = true →
      (readLoopAux decoder w h env i fuel buf calls).result =
        NextResult.eof) := by
  have key : ∀ decoder w h env i fuel buf calls, 0 < fuel →
      (env i).cancelled = true →
      (readLoopAux decoder w h env i fuel buf calls).result =
        NextResult.eof := by
    intro decoder w h env i fuel buf calls hf hc
    match fuel, hf with
    | fuel + 1, _ => simp only [readLoopAux, hc, if_true]
  exact ⟨fun decoder w h env buf hc =>
    key decoder w h env 0 maxEmptyFrameCount buf [] (by decide) hc, key⟩

theorem next_after_cancel_returns_eof_witness :
    (readNext decAlwaysOk 2 2 envCancelled []).result = NextResult.eof ∧
    (readLoopAux decAlwaysOk 2 2 envCancelled 3 2 [] []).result =
      NextResult.eof :=
  ⟨next_after_cancel_returns_eof.1 decAlwaysOk 2 2 envCancelled [] rfl,
   next_after_cancel_returns_eof.2 decAlwaysOk 2 2 envCancelled 3 2 [] []
     (by decide) rfl⟩

/-- Claim C6: the claim asserts Close is fully idempotent and never releases
the handle twice. Evaluating the embedded `cameraClose`: a never-opened
session is a no-op returning nil, and both calls of a double Close return
nil with the cancel/StopStreaming path running once — but the second call
invokes the underlying handle Close again (`camCloseCalls = 2`), because
`c.cam` is never cleared after a successful close. -/
theorem cameraClose_double_release :
    cameraClose ⟨false, false, 0, 0⟩ = (⟨false, false, 0, 0⟩, none) ∧
    (cameraClose ⟨true, true, 0, 0⟩).2 = none ∧
    (cameraClose (cameraClose ⟨true, true, 0, 0⟩).1).2 = none ∧
    (cameraClose (cameraClose ⟨true, true, 0, 0⟩).1).1.stopStreamingCalls
      = 1 ∧
    (cameraClose (cameraClose ⟨true, true, 0, 0⟩).1).1.camCloseCalls = 2 := by
  decide

/-- Claim C10: for every canonical format present in the Format Table,
resolving canonical→native through the reversed map and then native→canonical
through the forward map yields the original canonical format; both columns of
the table are duplicate-free (the mapping is injective in both directions). -/
theorem format_table_roundtrip :
    (∀ f : Format, (lookupReversed f).isSome = true →
      (lookupReversed f).bind lookupFormat = some f) ∧
    (formatPairs.map Prod.fst).Nodup ∧ (formatPairs.map Prod.snd).Nodup := by
  refine ⟨?_, by decide, by decide⟩
  intro f hf
  cases f <;> first | rfl | (exfalso; exact absurd hf (by decide))

theorem format_table_roundtrip_witness :
    (lookupReversed Format.mjpeg).bind lookupFormat = some Format.mjpeg :=
  format_table_roundtrip.1 Format.mjpeg (by decide)

/-- Claim C9: for a non-empty read `b`, the slice handed to the decoder is an
exact byte-for-byte copy of `b` of length `len(b)` held in the session's
scratch buffer (which grows to `max` of the old length and `len(b)`, so a
shrinking frame leaves no stale tail in the slice); the scratch buffer's
length never decreases across the reads of one call; and in the read loop the
decode invocation recorded for a non-empty read `b` is exactly `(b, w, h)`. -/
theorem scratch_buffer_exact_copy (buf b : List Nat) :
    (scratchStep buf b).2 = b ∧
    (scratchStep buf b).1.length = max b.length buf.length ∧
    (∀ decoder w h env i fuel calls,
      buf.length ≤ (readLoopAux decoder w h env i fuel buf calls).buf.length) ∧
    (∀ decoder w h env i fuel calls,
      env i = ⟨false, .ok, .ok b⟩ → b ≠ [] →
      ∃ rest, (readLoopAux decoder w h env i (fuel + 1) buf calls).calls =
        calls ++ [(b, w, h)] ++ rest) := by
  refine ⟨scratchStep_snd buf b, scratchStep_fst_len buf b,
    fun decoder w h env i fuel calls =>
      readLoopAux_buf_mono decoder w h env fuel i buf calls, ?_⟩
  intro decoder w h env i fuel calls henv hb
  have hlen : ¬ b.length = 0 := fun hl => hb (List.length_eq_zero.mp hl)
  simp only [readLoopAux, henv, hlen, if_false, scratchStep_snd,
    Bool.false_eq_true]
  split
  · split
    · obtain ⟨rest, hrest⟩ := readLoopAux_calls_mono decoder w h env fuel
        (i + 1) (scratchStep buf b).1 (calls ++ [(b, w, h)])
      exact ⟨rest, by rw [hrest, List.append_assoc]⟩
    · exact ⟨[], by simp⟩
  · exact ⟨[], by simp⟩

theorem scratch_buffer_exact_copy_witness :
    ∃ rest,
      (readLoopAux decAlwaysOk 4 3 envFourEmptyThenFrame 4 1 [5, 5] []).calls
        = [] ++ [([9], 4, 3)] ++ rest :=
  (scratch_buffer_exact_copy [5, 5] [9]).2.2.2 decAlwaysOk 4 3
    envFourEmptyThenFrame 4 0 [] rfl (by decide)

/-- Claim C1: within one `next()` call, empty (but successful) reads are
retried up to `maxEmptyFrameCount = 5` consecutive times: four empty reads
followed by a non-empty, decodable frame yield that decoded frame with no
error, while five consecutive empty reads yield the too-many-empty-frames
error (`errEmptyFrame`). -/
theorem next_empty_retry_bound
    (decoder : DecFn) (w h : Nat) (env : Nat → IterEnv) (buf b : List Nat)
    (r : DecodeRet) :
    (env 0 = ⟨false, .ok, .ok []⟩ → env 1 = ⟨false, .ok, .ok []⟩ →
     env 2 = ⟨false, .ok, .ok []⟩ → env 3 = ⟨false, .ok, .ok []⟩ →
     env 4 = ⟨false, .ok, .ok b⟩ → b ≠ [] →
     decoder b w h = r → r.err = none →
     (readNext decoder w h env buf).result = NextResult.ret r) ∧
    (env 0 = ⟨false, .ok, .ok []⟩ → env 1 = ⟨false, .ok, .ok []⟩ →
     env 2 = ⟨false, .ok, .ok []⟩ → env 3 = ⟨false, .ok, .ok []⟩ →
     env 4 = ⟨false, .ok, .ok []⟩ →
     (readNext decoder w h env buf).result = NextResult.emptyFrames) := by
  constructor
  · intro h0 h1 h2 h3 h4 hb hd hre
    have hlen : ¬ b.length = 0 := fun hl => hb (List.length_eq_zero.mp hl)
    simp [readNext, maxEmptyFrameCount, readLoopAux, h0, h1, h2, h3, h4,
      hlen, scratchStep_snd, hd, hre]
  · intro h0 h1 h2 h3 h4
    simp [readNext, maxEmptyFrameCount, readLoopAux, h0, h1, h2, h3, h4]

theorem next_empty_retry_bound_witness :
    (readNext decAlwaysOk 2 2 envFourEmptyThenFrame []).result =
      NextResult.ret ⟨some 0, 0, none⟩ ∧
    (readNext decAlwaysOk 2 2 envAllEmpty []).result =
      NextResult.emptyFrames :=
  ⟨(next_empty_retry_bound decAlwaysOk 2 2 envFourEmptyThenFrame [] [9]
      ⟨some 0, 0, none⟩).1 rfl rfl rfl rfl rfl (by decide) rfl rfl,
   (next_empty_retry_bound decAlwaysOk 2 2 envAllEmpty [] []
      ⟨none, 0, none⟩).2 rfl rfl rfl rfl rfl⟩

/-- Claim C2: a non-empty read whose decode fails with a decoder-classified
error (one matching `DecoderError` under `errors.Is`) is not returned to the
caller: the loop keeps retrying under the same shared 5-attempt budget, so a
decoder failing on attempt 1 and succeeding on attempt 2 yields the attempt-2
image; and a classified decode failure consumes one attempt of the shared
budget (one such failure followed by four empty reads exhausts it). -/
theorem next_decode_error_retry
    (decoder : DecFn) (w h : Nat) (env : Nat → IterEnv)
    (buf b1 b2 : List Nat) (e1 : GoError) (r2 : DecodeRet) :
    (env 0 = ⟨false, .ok, .ok b1⟩ → b1 ≠ [] →
     (decoder b1 w h).err = some e1 →
     errorsIs e1 DecoderErrorSentinel = true →
     env 1 = ⟨false, .ok, .ok b2⟩ → b2 ≠ [] →
     decoder b2 w h = r2 → r2.err = none →
     (readNext decoder w h env buf).result = NextResult.ret r2) ∧
    (env 0 = ⟨false, .ok, .ok b1⟩ → b1 ≠ [] →
     (decoder b1 w h).err = some e1 →
     errorsIs e1 DecoderErrorSentinel = true →
     env 1 = ⟨false, .ok, .ok []⟩ → env 2 = ⟨false, .ok, .ok []⟩ →
     env 3 = ⟨false, .ok, .ok []⟩ → env 4 = ⟨false, .ok, .ok []⟩ →
     (readNext decoder w h env buf).result = NextResult.emptyFrames) := by
  constructor
  · intro h0 hb1 hd1 hcl h1 hb2 hd2 hre
    have hlen1 : ¬ b1.length = 0 := fun hl => hb1 (List.length_eq_zero.mp hl)
    have hlen2 : ¬ b2.length = 0 := fun hl => hb2 (List.length_eq_zero.mp hl)
    simp [readNext, maxEmptyFrameCount, readLoopAux, h0, h1, hlen1, hlen2,
      scratchStep_snd, hd1, hcl, hd2, hre]
  · intro h0 hb1 hd1 hcl h1 h2 h3 h4
    have hlen1 : ¬ b1.length = 0 := fun hl => hb1 (List.length_eq_zero.mp hl)
    simp [readNext, maxEmptyFrameCount, readLoopAux, h0, h1, h2, h3, h4,
      hlen1, scratchStep_snd, hd1, hcl]

theorem next_decode_error_retry_witness :
    (readNext decFailOnOne 3 3 envBadThenGood []).result =
      NextResult.ret ⟨some 7, 0, none⟩ ∧
    (readNext decFailOnOne 3 3 envBadThenEmpty []).result =
      NextResult.emptyFrames :=
  ⟨(next_decode_error_retry decFailOnOne 3 3 envBadThenGood [] [1] [2]
      (.decoderErr (.simple "bad frame")) ⟨some 7, 0, none⟩).1
      rfl (by decide) rfl rfl rfl (by decide) rfl rfl,
   (next_decode_error_retry decFailOnOne 3 3 envBadThenEmpty [] [1] []
      (.decoderErr (.simple "bad frame")) ⟨none, 0, none⟩).2
      rfl (by decide) rfl rfl rfl rfl rfl rfl⟩

/-- Claim C8: the decoder proxy (`decoderFunc.Decode`) turns every failure of
the underlying decode function into a typed decode error wrapping the cause:
`errors.Is(err, DecoderError)` holds and `Unwrap`/`Cause` return the original
cause, while the image and release callback pass through unchanged; on
success the whole triple passes through untouched. The MJPEG decoder never
aborts on malformed input: it returns the underlying JPEG error (with no
image), and passes a decoded image through with a nil error. -/
theorem decoder_contract_wrapping (f : DecFn) (b : List Nat) (w h : Nat) :
    ((f b w h).err = none → decoderFuncDecode f b w h = f b w h) ∧
    (∀ e, (f b w h).err = some e →
      (decoderFuncDecode f b w h).img = (f b w h).img ∧
      (decoderFuncDecode f b w h).release = (f b w h).release ∧
      (decoderFuncDecode f b w h).err = some (GoError.decoderErr e) ∧
      errorsIs (GoError.decoderErr e) DecoderErrorSentinel = true ∧
      decoderErrUnwrap (GoError.decoderErr e) = some e ∧
      decoderErrCause (GoError.decoderErr e) = some e) ∧
    (∀ jd e, jd b = .error e →
      (decodeMJPEG jd b w h).err = some e ∧
      (decodeMJPEG jd b w h).img = none) ∧
    (∀ jd img, jd b = .ok img →
      decodeMJPEG jd b w h = ⟨some img, 0, none⟩) := by
  refine ⟨?_, ?_, ?_, ?_⟩
  · intro hnone
    simp [decoderFuncDecode, hnone]
  · intro e he
    refine ⟨?_, ?_, ?_, ?_, rfl, rfl⟩
    · simp [decoderFuncDecode, he]
    · simp [decoderFuncDecode, he]
    · simp [decoderFuncDecode, he]
    · rfl
  · intro jd e hj
    constructor <;> simp [decodeMJPEG, hj]
  · intro jd img hj
    simp [decodeMJPEG, hj]

theorem decoder_contract_wrapping_witness :
    decoderFuncDecode decAlwaysOk [1] 2 2 = decAlwaysOk [1] 2 2 ∧
    ((decoderFuncDecode decAlwaysFail [1] 2 2).img =
        (decAlwaysFail [1] 2 2).img ∧
      (decoderFuncDecode decAlwaysFail [1] 2 2).release =
        (decAlwaysFail [1] 2 2).release ∧
      (decoderFuncDecode decAlwaysFail [1] 2 2).err =
        some (GoError.decoderErr (.simple "boom")) ∧
      errorsIs (GoError.decoderErr (.simple "boom")) DecoderErrorSentinel
        = true ∧
      decoderErrUnwrap (GoError.decoderErr (.simple "boom")) =
        some (.simple "boom") ∧
      decoderErrCause (GoError.decoderErr (.simple "boom")) =
        some (.simple "boom")) ∧
    ((decodeMJPEG jpegAlwaysFail [1] 2 2).err =
        some (.simple "invalid JPEG") ∧
      (decodeMJPEG jpegAlwaysFail [1] 2 2).img = none) ∧
    decodeMJPEG jpegAlwaysOk [1] 2 2 = ⟨some 5, 0, none⟩ :=
  ⟨(decoder_contract_wrapping decAlwaysOk [1] 2 2).1 rfl,
   (decoder_contract_wrapping decAlwaysFail [1] 2 2).2.1
     (.simple "boom") rfl,
   (decoder_contract_wrapping decAlwaysFail [1] 2 2).2.2.1 jpegAlwaysFail
     (.simple "invalid JPEG") rfl,
   (decoder_contract_wrapping decAlwaysFail [1] 2 2).2.2.2 jpegAlwaysOk
     5 rfl⟩

/-- Claim C3 (counterexample): requesting canonical format I444 — which has
no native counterpart in the Format Table — does not make `VideoRecord` fail
with a negotiation error: the reversed map index yields the zero pixel format
and the call proceeds to ask the device to set format 0, succeeding when the
device cooperates. -/
theorem videoRecord_no_negotiation_failure :
    lookupReversed Format.i444 = none ∧
    (videoRecord newDecoderAlwaysOk devEcho
      ⟨Format.i444, 640, 480, 0⟩).setFormatCalls = [(0, 640, 480)] ∧
    (videoRecord newDecoderAlwaysOk devEcho
      ⟨Format.i444, 640, 480, 0⟩).result =
      .ok ⟨decAlwaysOk, 640, 480⟩ :=
  ⟨by decide, rfl, rfl⟩

/-- Claim C3 (amended): when the requested canonical format has no native
counterpart registered in the Format Table (and a decoder for it exists),
`VideoRecord` does not fail with a negotiation error: the presence-unchecked
reversed-map index yields the zero native format and the operation proceeds
to ask the device to set format 0 at the requested size. -/
theorem videoRecord_absent_format_asks_device
    (newDecoder : Format → Except GoError DecFn) (dev : VRDevice)
    (p : MediaProp) (d : DecFn)
    (hnd : newDecoder p.frameFormat = .ok d)
    (habs : lookupReversed p.frameFormat = none) :
    (videoRecord newDecoder dev p).setFormatCalls =
      [(0, p.width, p.height)] := by
  have hzero : goReversedIndex p.frameFormat = 0 := by
    simp [goReversedIndex, habs]
  simp only [videoRecord, hnd, hzero]
  repeat' split
  all_goals rfl

theorem videoRecord_absent_format_asks_device_witness :
    (videoRecord newDecoderAlwaysOk devEcho
      ⟨Format.i444, 320, 240, 5⟩).setFormatCalls = [(0, 320, 240)] :=
  videoRecord_absent_format_asks_device newDecoderAlwaysOk devEcho
    ⟨Format.i444, 320, 240, 5⟩ decAlwaysOk rfl (by decide)

/-- Claim C5: when the device's set-format call succeeds but answers with an
actual format/resolution different from the requested one, `VideoRecord`
still succeeds (the difference is accepted, not an error), and the returned
reader is bound to the originally requested width and height: every decode
invocation it ever makes uses those dimensions, never the actual ones the
device reported. -/
theorem videoRecord_uses_requested_dims
    (newDecoder : Format → Except GoError DecFn) (dev : VRDevice)
    (p : MediaProp) (d : DecFn) (apf aw ah : Nat)
    (hnd : newDecoder p.frameFormat = .ok d)
    (hset : dev.setImageFormat (goReversedIndex p.frameFormat) p.width
      p.height = .ok (apf, aw, ah))
    (hfr : p.frameRate = 0 ∨ dev.setFramerate p.frameRate = .ok ())
    (hss : dev.startStreaming = .ok ()) :
    (videoRecord newDecoder dev p).result =
      .ok ⟨d, p.width, p.height⟩ ∧
    (∀ env buf c, c ∈ (runReader ⟨d, p.width, p.height⟩ env buf).calls →
      c.2.1 = p.width ∧ c.2.2 = p.height) := by
  constructor
  · rcases hfr with hz | hok
    · simp [videoRecord, hnd, hset, hss, hz]
    · simp [videoRecord, hnd, hset, hss, hok]
  · intro env buf c hc
    have hc2 : c ∈ (readLoopAux d p.width p.height env 0 maxEmptyFrameCount
        buf []).calls := by
      simpa [runReader, readNext] using hc
    rcases readLoopAux_calls_dims d p.width p.height env maxEmptyFrameCount 0
        buf [] c hc2 with hmem | hdims
    · simp at hmem
    · exact hdims

theorem videoRecord_uses_requested_dims_witness :
    (videoRecord newDecoderAlwaysOk devDowngrade
      ⟨Format.mjpeg, 640, 480, 0⟩).result =
      Except.ok ⟨decAlwaysOk, 640, 480⟩ ∧
    (([9], 640, 480) : List Nat × Nat × Nat).2.1 = 640 ∧
    (([9], 640, 480) : List Nat × Nat × Nat).2.2 = 480 :=
  ⟨(videoRecord_uses_requested_dims newDecoderAlwaysOk devDowngrade
      ⟨Format.mjpeg, 640, 480, 0⟩ decAlwaysOk 0x47504A4D 99 77 rfl rfl
      (Or.inl rfl) rfl).1,
   (videoRecord_uses_requested_dims newDecoderAlwaysOk devDowngrade
      ⟨Format.mjpeg, 640, 480, 0⟩ decAlwaysOk 0x47504A4D 99 77 rfl rfl
      (Or.inl rfl) rfl).2 envFourEmptyThenFrame [] ([9], 640, 480)
      (by decide)⟩

/-- Claim C4: in a `Properties` query, a device-reported format absent from
the table contributes nothing; for a table-registered format, a frame-size
entry with a zero step component emits exactly one descriptor at
`(MaxWidth, MaxHeight)`, and a stepped entry emits a standard-list resolution
`(w, hh)` exactly when `min ≤ w ≤ max`, `min ≤ hh ≤ max` and the offsets from
the minima are divisible by the steps, width and height checked
independently. -/
theorem properties_enumeration (fmt : Format) (fs : FrameSize) :
    (fs.stepWidth = 0 ∨ fs.stepHeight = 0 →
      sizeProperties fmt fs = [⟨fs.maxWidth, fs.maxHeight, fmt⟩]) ∧
    (fs.stepWidth ≠ 0 → fs.stepHeight ≠ 0 → ∀ w hh,
      ((⟨w, hh, fmt⟩ : VideoProp) ∈ sizeProperties fmt fs ↔
        ((w, hh) ∈ supportedResolutions ∧
         fs.minWidth ≤ w ∧ w ≤ fs.maxWidth ∧
         fs.minHeight ≤ hh ∧ hh ≤ fs.maxHeight ∧
         (w - fs.minWidth) % fs.stepWidth = 0 ∧
         (hh - fs.minHeight) % fs.stepHeight = 0))) ∧
    (∀ pf sizes, lookupFormat pf = none →
      cameraProperties [(pf, sizes)] = []) ∧
    (∀ pf fmt2 sizes, lookupFormat pf = some fmt2 →
      cameraProperties [(pf, sizes)] = sizes.flatMap (sizeProperties fmt2)) := by
  refine ⟨?_, ?_, ?_, ?_⟩
  · intro hz
    simp only [sizeProperties, if_pos hz]
  · intro hw hh0 w hh
    have hcond : ¬ (fs.stepWidth = 0 ∨ fs.stepHeight = 0) := by
      rintro (hc | hc)
      · exact hw hc
      · exact hh0 hc
    simp only [sizeProperties, if_neg hcond, List.mem_filterMap]
    constructor
    · rintro ⟨⟨a1, a2⟩, ha, hf⟩
      dsimp only at hf
      by_cases hrange : (a1 < fs.minWidth ∨ fs.maxWidth < a1 ∨
        a2 < fs.minHeight ∨ fs.maxHeight < a2)
      · rw [if_pos hrange] at hf
        cases hf
      · rw [if_neg hrange] at hf
        by_cases hmod : ((a1 - fs.minWidth) % fs.stepWidth ≠ 0 ∨
          (a2 - fs.minHeight) % fs.stepHeight ≠ 0)
        · rw [if_pos hmod] at hf
          cases hf
        · rw [if_neg hmod] at hf
          simp only [Option.some.injEq, VideoProp.mk.injEq] at hf
          obtain ⟨e1, e2, _⟩ := hf
          subst e1
          subst e2
          push_neg at hrange hmod
          exact ⟨ha, hrange.1, hrange.2.1, hrange.2.2.1, hrange.2.2.2,
            hmod.1, hmod.2⟩
    · rintro ⟨hmem, h1, h2, h3, h4, h5, h6⟩
      refine ⟨(w, hh), hmem, ?_⟩
      dsimp only
      rw [if_neg (by push_neg; exact ⟨h1, h2, h3, h4⟩),
        if_neg (by push_neg; exact ⟨h5, h6⟩)]
  · intro pf sizes hnone
    simp [cameraProperties, hnone]
  · intro pf fmt2 sizes hsome
    simp [cameraProperties, hsome]

theorem properties_enumeration_witness :
    sizeProperties Format.yuyv ⟨640, 640, 0, 480, 480, 0⟩ =
      [⟨640, 480, Format.yuyv⟩] ∧
    (⟨1280, 720, Format.mjpeg⟩ : VideoProp) ∈
      sizeProperties Format.mjpeg ⟨0, 2000, 10, 0, 1100, 10⟩ ∧
    cameraProperties [(12345, [⟨640, 640, 0, 480, 480, 0⟩])] = [] :=
  ⟨(properties_enumeration Format.yuyv ⟨640, 640, 0, 480, 480, 0⟩).1
      (Or.inl rfl),
   ((properties_enumeration Format.mjpeg ⟨0, 2000, 10, 0, 1100, 10⟩).2.1
      (by decide) (by decide) 1280 720).mpr (by decide),
   (properties_enumeration Format.yuyv ⟨640, 640, 0, 480, 480, 0⟩).2.2.1
      12345 [⟨640, 640, 0, 480, 480, 0⟩] (by decide)⟩
